import Mathlib

/-!
Verification development for the AEGISDNS normalization and detection
pipeline (source file: utils/forensics module).

Modelling conventions:
* JavaScript numbers are modelled by `ℚ` (all the arithmetic performed by
  the scoring/classification code is exact decimal arithmetic); the one
  transcendental computation, `Math.log2` inside the entropy calculator,
  is modelled over `ℝ` and its `toFixed(3)` rounding maps back into `ℚ`.
* Strings are Lean `String`s (sequences of characters); `str.length` is
  the character count.
* Loosely-typed input field maps are association lists from keys to
  string values; a missing key is `none` and JavaScript falsiness of a
  string value is emptiness.
* The sources of nondeterminism of the source code (`Math.random()` for
  the confidence jitter and generated ids, `new Date()` for default
  timestamps) are passed in explicitly through a `NormEnv` environment.
* `Math.round` / `toFixed` round half away from zero on the non-negative
  values that occur here, which is Mathlib's `round` (half up).
-/

namespace AegisDNS

/-- Reputation classification returned by `checkIpReputation`. -/
inductive Reputation where
  | CLEAN
  | SUSPICIOUS
  | MALICIOUS
  | UNKNOWN
deriving DecidableEq, Repr

/-- Classification label returned by `classifyQuery`. -/
inductive Label where
  | Normal
  | Tunneling
deriving DecidableEq, Repr

/-- The canonical DNS query record (interface `DNSQuery` of the source).
`location`, `lat`/`lng` enrichment and `isNew` are optional in the source;
only `location` matters to the scoring logic, so `lat`/`lng`/`isNew` are
omitted. `label`/`confidence` are always populated by the normalizer. -/
structure DNSQuery where
  id : String
  timestamp : String
  sourceIp : String
  query : String
  type : String
  responseCode : String
  length : ℚ
  entropy : ℚ
  location : Option String
  label : Label
  confidence : ℚ
  threatScore : ℚ
  reputation : Reputation
  metadata : List (String × String)
deriving DecidableEq, Repr

/-- Aggregate snapshot (interface `FeatureStats` of the source). -/
structure FeatureStats where
  avgEntropy : ℚ
  avgLength : ℚ
  nxDomainRatio : ℚ
  totalQueries : ℕ
  uniqueSubdomains : ℕ
deriving DecidableEq, Repr

/-- A loosely-typed input field map fed to the normalizer. -/
abbrev InputData := List (String × String)

/-- Explicit environment for the normalizer's nondeterminism:
generated id, current instant, and the `Math.random()` draw in `[0,1)`
used for the confidence jitter. -/
structure NormEnv where
  genId : String
  now : String
  rand : ℚ
deriving DecidableEq, Repr

/-! ## String helpers (models of the JavaScript string primitives used) -/

/-- `startsWithL l p` models `String.prototype.startsWith` on char lists. -/
def startsWithL : List Char → List Char → Bool
  | _, [] => true
  | [], _ :: _ => false
  | a :: as, b :: bs => a = b && startsWithL as bs

/-- `occursIn sub l`: does `sub` occur as a contiguous run inside `l`?
Models `String.prototype.includes`. -/
def occursIn (sub : List Char) : List Char → Bool
  | [] => sub.isEmpty
  | c :: rest => startsWithL (c :: rest) sub || occursIn sub rest

/-- `strContains s sub` models `s.includes(sub)`. -/
def strContains (s sub : String) : Bool :=
  occursIn sub.toList s.toList

/-- Trim whitespace from both ends of a char list. -/
def trimL (l : List Char) : List Char :=
  ((l.dropWhile Char.isWhitespace).reverse.dropWhile Char.isWhitespace).reverse

/-- `s.trim()` (JavaScript whitespace trimming). -/
def strTrim (s : String) : String :=
  ⟨trimL s.toList⟩

/-- Accumulator loop for splitting a char list at separator characters;
consecutive separators produce empty segments, as `String.prototype.split`
with a single-character separator does. -/
def splitCharAux (sep : Char) : List Char → List Char → List String
  | [], acc => [⟨acc.reverse⟩]
  | c :: rest, acc =>
      if c = sep then ⟨acc.reverse⟩ :: splitCharAux sep rest []
      else splitCharAux sep rest (c :: acc)

/-- `s.split(sep)` for a one-character separator. -/
def strSplitChar (s : String) (sep : Char) : List String :=
  splitCharAux sep s.toList []

/-- Split at every character satisfying `p` (empty segments kept). -/
def splitPredAux (p : Char → Bool) : List Char → List Char → List String
  | [], acc => [⟨acc.reverse⟩]
  | c :: rest, acc =>
      if p c then ⟨acc.reverse⟩ :: splitPredAux p rest []
      else splitPredAux p rest (c :: acc)

/-- `s.split(p)` at single characters satisfying `p`. -/
def strSplitPred (s : String) (p : Char → Bool) : List String :=
  splitPredAux p s.toList []

/-- `s.includes(c)` for one character. -/
def strContainsChar (s : String) (c : Char) : Bool :=
  s.toList.contains c

/-- `s.toUpperCase()` (ASCII case mapping). -/
def strToUpper (s : String) : String :=
  ⟨s.toList.map Char.toUpper⟩

/-- `s.toLowerCase()` (ASCII case mapping). -/
def strToLower (s : String) : String :=
  ⟨s.toList.map Char.toLower⟩

/-- Rounding a real to three decimal places, as done by
`parseFloat(x.toFixed(3))`; the result is an exact rational. -/
noncomputable def roundTo3 (x : ℝ) : ℚ :=
  ((round (x * 1000) : ℤ) : ℚ) / 1000

/-- Rounding a rational to three decimal places (`toFixed(3)`). -/
def roundQ3 (x : ℚ) : ℚ :=
  ((round (x * 1000) : ℤ) : ℚ) / 1000

/-- Rounding a rational to one decimal place (`toFixed(1)`). -/
def roundQ1 (x : ℚ) : ℚ :=
  ((round (x * 10) : ℤ) : ℚ) / 10

/-! ## Entropy Calculator (`calculateEntropy`) -/

/-- The raw Shannon entropy accumulated by the `for (const char in freq)`
loop: for each distinct character `c` of `l` with probability
`p = count/len`, the loop adds `-(p * Math.log2(p))`. -/
noncomputable def entropyRaw (l : List Char) : ℝ :=
  ∑ c in l.toFinset,
    -(((l.count c : ℝ) / (l.length : ℝ)) *
      Real.logb 2 ((l.count c : ℝ) / (l.length : ℝ)))

/-- `calculateEntropy` of the source: `0` for the empty string, otherwise
the character-frequency Shannon entropy rounded to 3 decimal places. -/
noncomputable def calculateEntropy (s : String) : ℚ :=
  if s.length = 0 then 0 else roundTo3 (entropyRaw s.toList)

/-! ## Reputation Checker (`checkIpReputation`) -/

/-- The fixed malicious-address list of the source. -/
def maliciousIps : List String :=
  ["192.168.1.105", "45.33.22.11", "103.22.11.55", "185.22.11.33"]

/-- The fixed suspicious-address list of the source. -/
def suspiciousIps : List String :=
  ["192.168.1.200", "104.16.132.229"]

/-- `checkIpReputation` of the source: malicious list, then suspicious
list, then the private `192.168.` network, then unknown. -/
def checkIpReputation (ip : String) : Reputation :=
  if ip ∈ maliciousIps then .MALICIOUS
  else if ip ∈ suspiciousIps then .SUSPICIOUS
  else if startsWithL ip.toList ("192.168.".toList) then .CLEAN
  else .UNKNOWN

/-! ## Stats Aggregator (`getStats`) -/

/-- `getStats` of the source. Note that `nxDomainRatio` is the literal
constant `0.12` in the source (commented "Simulated for demo purposes"). -/
def getStats (logs : List DNSQuery) : FeatureStats :=
  if logs.length = 0 then
    { avgEntropy := 0, avgLength := 0, nxDomainRatio := 0
      totalQueries := 0, uniqueSubdomains := 0 }
  else
    let totalQueries := logs.length
    let avgEntropy := (logs.map DNSQuery.entropy).sum / (totalQueries : ℚ)
    let avgLength := (logs.map DNSQuery.length).sum / (totalQueries : ℚ)
    let subdomains := (logs.map (fun l => ((strSplitChar l.query '.').headD ""))).dedup
    { avgEntropy := roundQ3 avgEntropy
      avgLength := roundQ1 avgLength
      nxDomainRatio := 0.12
      totalQueries := totalQueries
      uniqueSubdomains := subdomains.length }

/-! ## Threat Scorer (`calculateThreatScore`) -/

/-- High-risk region names of the source's geolocation factor. -/
def highRiskLocations : List String :=
  ["Russia", "China", "North Korea", "Iran", "Unknown"]

/-- Factor 1 of `calculateThreatScore`: entropy (cap 40). -/
def entropyFactor (q : DNSQuery) : ℚ :=
  if q.entropy > 3.5 then min 40 ((q.entropy - 3.5) * 30) else 0

/-- Factor 2 of `calculateThreatScore`: length (cap 20). -/
def lengthFactor (q : DNSQuery) : ℚ :=
  if q.length > 40 then min 20 ((q.length - 40) * 0.5) else 0

/-- Factor 3 of `calculateThreatScore`: response code. -/
def responseCodeFactor (q : DNSQuery) : ℚ :=
  if q.responseCode = "NXDOMAIN" then 15
  else if q.responseCode = "SERVFAIL" then 10
  else 0

/-- Factor 4 of `calculateThreatScore`: query type. -/
def queryTypeFactor (q : DNSQuery) : ℚ :=
  if q.type = "TXT" then 10
  else if q.type = "NULL" then 15
  else 0

/-- Factor 5 of `calculateThreatScore`: geolocation. The source guards with
JavaScript truthiness: `query.location && highRiskLocations.some(...)`
gives 15, else `!query.location || query.location === 'Resolving...'`
gives 5 — so a present-but-empty location string falls into the `+5`
branch. -/
def geoFactor (q : DNSQuery) : ℚ :=
  match q.location with
  | some loc =>
      if loc ≠ "" ∧ highRiskLocations.any (fun l => strContains loc l) then 15
      else if loc = "" ∨ loc = "Resolving..." then 5
      else 0
  | none => 5

/-- Factor 6 of `calculateThreatScore`: reputation. -/
def reputationFactor (q : DNSQuery) : ℚ :=
  if q.reputation = .MALICIOUS then 25
  else if q.reputation = .SUSPICIOUS then 15
  else 0

/-- `calculateThreatScore` of the source: the six accumulated factors,
then `Math.min(100, Math.round(score))`. -/
def calculateThreatScore (query : DNSQuery) : ℚ :=
  let score := entropyFactor query + lengthFactor query +
    responseCodeFactor query + queryTypeFactor query +
    geoFactor query + reputationFactor query
  min 100 ((round score : ℤ) : ℚ)

/-! ## Classifier (`classifyQuery`) -/

/-- The `Partial<DNSQuery>` argument of `classifyQuery`: only the fields
the classifier reads. -/
structure ClassifyInput where
  query : Option String
  length : Option ℚ
  entropy : Option ℚ
  threatScore : Option ℚ
deriving Repr

/-- The classifier's result record. -/
structure ClassifyResult where
  label : Label
  confidence : ℚ
deriving DecidableEq, Repr

/-- `query.entropy ?? calculateEntropy(query.query ?? "")`. -/
noncomputable def resolvedEntropy (q : ClassifyInput) : ℚ :=
  q.entropy.getD (calculateEntropy (q.query.getD ""))

/-- `query.length ?? (query.query?.length ?? 0)`. -/
def resolvedLength (q : ClassifyInput) : ℚ :=
  q.length.getD ((q.query.map (fun s => (s.length : ℚ))).getD 0)

/-- `query.threatScore ?? 0`. -/
def resolvedScore (q : ClassifyInput) : ℚ :=
  q.threatScore.getD 0

/-- `classifyQuery` of the source. `rand` is the `Math.random()` draw in
`[0,1)` of the branch that executes (only one branch draws). -/
noncomputable def classifyQuery (q : ClassifyInput) (rand : ℚ) : ClassifyResult :=
  let entropy := resolvedEntropy q
  let length := resolvedLength q
  let score := resolvedScore q
  let label : Label :=
    if (entropy > 4.2 ∨ length > 55) ∨ score > 60 then .Tunneling else .Normal
  let confidence : ℚ :=
    if label = .Tunneling then min 0.99 (0.7 + score / 200 + rand * 0.1)
    else min 0.99 (0.8 + rand * 0.15)
  { label := label, confidence := confidence }

/-! ## Log Normalizer (`normalizeDNSQuery`) -/

/-- Key lookup in a field map (JavaScript property access). -/
def getField (data : InputData) (k : String) : Option String :=
  (data.find? (fun kv => kv.1 == k)).map (·.2)

/-- `data.a || data.b || ...`: the first present *truthy* (non-empty)
value along the alias chain. -/
def firstTruthy (data : InputData) : List String → Option String
  | [] => none
  | k :: ks =>
      match getField data k with
      | some v => if v ≠ "" then some v else firstTruthy data ks
      | none => firstTruthy data ks

/-- `data.query || data.domain || data.qname || data.Question || ''`. -/
def resolveQuery (data : InputData) : String :=
  (firstTruthy data ["query", "domain", "qname", "Question"]).getD ""

/-- The `coreFields` list of the source, used only for the metadata
split. Note it does not contain the capitalized alias keys `Question`,
`SourceIP`, `Timestamp`, `QueryType`, `ResponseCode`. -/
def coreFields : List String :=
  ["id", "timestamp", "time", "sourceIp", "src_ip", "client_ip",
   "query", "domain", "qname", "type", "qtype", "responseCode", "rcode"]

/-- The `queryObj` literal built inside `normalizeDNSQuery`: resolve the
query text, compute entropy/length, split metadata, classify (with no
threat score yet), resolve reputation; `threatScore` still `0`. -/
noncomputable def normalizePre (env : NormEnv) (data : InputData) : DNSQuery :=
  let query := resolveQuery data
  let entropy := calculateEntropy query
  let length : ℚ := (query.length : ℚ)
  let metadata := data.filter (fun kv => !(coreFields.contains kv.1))
  let cls := classifyQuery
    { query := some query, length := some length,
      entropy := some entropy, threatScore := none } env.rand
  let sourceIp := (firstTruthy data ["sourceIp", "src_ip", "client_ip", "SourceIP"]).getD "192.168.1.1"
  { id := (firstTruthy data ["id"]).getD env.genId
    timestamp := (firstTruthy data ["timestamp", "time", "Timestamp"]).getD env.now
    sourceIp := sourceIp
    query := query
    type := strToUpper ((firstTruthy data ["type", "qtype", "QueryType"]).getD "A")
    responseCode := (firstTruthy data ["responseCode", "rcode", "ResponseCode"]).getD "NOERROR"
    length := length
    entropy := entropy
    location := none
    label := cls.label
    confidence := cls.confidence
    threatScore := 0
    reputation := checkIpReputation sourceIp
    metadata := metadata }

/-- `normalizeDNSQuery` of the source: build `queryObj` (including the
classification, with no threat score yet, and the reputation), then
update its threat score from the fully-populated record. -/
noncomputable def normalizeDNSQuery (env : NormEnv) (data : InputData) : DNSQuery :=
  let queryObj := normalizePre env data
  { queryObj with threatScore := calculateThreatScore queryObj }

/-! ## Multi-Format Parser (`parseLogContent`)

The source calls the platform builtin `JSON.parse`. It is modelled below
by an executable recursive-descent parser over a JSON value type. The
model covers the JSON subset relevant to this pipeline: objects, arrays,
double-quoted strings without escape sequences, decimal numbers without
exponents, `true`/`false`/`null`. -/

/-- JSON values, as produced by the modelled `JSON.parse`. -/
inductive Json where
  | null
  | bool (b : Bool)
  | num (val : ℚ)
  | str (s : String)
  | arr (items : List Json)
  | obj (fields : List (String × Json))
deriving Repr

/-- The `\x7b` character. -/
def lbraceChar : Char := Char.ofNat 123

/-- The `\x7d` character. -/
def rbraceChar : Char := Char.ofNat 125

/-- The double-quote character. -/
def dquoteChar : Char := Char.ofNat 34

/-- The single-quote character. -/
def squoteChar : Char := Char.ofNat 39

/-- The backslash character. -/
def backslashChar : Char := Char.ofNat 92

/-- Skip JSON whitespace. -/
def skipWs (cs : List Char) : List Char :=
  cs.dropWhile (fun c => c.isWhitespace)

/-- Parse a run of decimal digits, returning them and the rest. -/
def takeDigits (cs : List Char) : List Char × List Char :=
  (cs.takeWhile (fun c => c.isDigit), cs.dropWhile (fun c => c.isDigit))

/-- Numeric value of a digit run. -/
def digitsToNat (ds : List Char) : ℕ :=
  ds.foldl (fun acc c => acc * 10 + (c.toNat - 48)) 0

/-- Parse a JSON number (optional minus, integer part, optional fraction;
exponents are outside the modelled subset). -/
def parseNumber (cs : List Char) : Option (Json × List Char) :=
  let (neg, cs₁) :=
    match cs with
    | '-' :: rest => (true, rest)
    | _ => (false, cs)
  let (intDigits, cs₂) := takeDigits cs₁
  if intDigits.isEmpty then none
  else
    let intVal : ℚ := (digitsToNat intDigits : ℚ)
    let (val, rest) :=
      match cs₂ with
      | '.' :: cs₃ =>
          let (fracDigits, cs₄) := takeDigits cs₃
          if fracDigits.isEmpty then (intVal, '.' :: cs₃)
          else
            (intVal + (digitsToNat fracDigits : ℚ) / ((10 : ℚ) ^ fracDigits.length), cs₄)
      | _ => (intVal, cs₂)
    some (Json.num (if neg then -val else val), rest)

/-- Parse a JSON string body after the opening quote (no escapes in the
modelled subset: a backslash makes the parse fail). -/
def parseStringBody : List Char → Option (String × List Char)
  | [] => none
  | c :: rest =>
      if c = dquoteChar then some ("", rest)
      else if c = backslashChar then none
      else match parseStringBody rest with
        | some (s, rem) => some (⟨c :: s.toList⟩, rem)
        | none => none

mutual

/-- Parse one JSON value (fuelled recursion; the fuel bounds nesting). -/
def parseValue : ℕ → List Char → Option (Json × List Char)
  | 0, _ => none
  | fuel + 1, cs =>
      match skipWs cs with
      | [] => none
      | c :: rest =>
          if c = lbraceChar then parseObjFields fuel rest true
          else if c = '[' then parseArrItems fuel rest true
          else if c = dquoteChar then
            match parseStringBody rest with
            | some (s, rem) => some (Json.str s, rem)
            | none => none
          else if startsWithL (c :: rest) "true".toList then
            some (Json.bool true, (c :: rest).drop 4)
          else if startsWithL (c :: rest) "false".toList then
            some (Json.bool false, (c :: rest).drop 5)
          else if startsWithL (c :: rest) "null".toList then
            some (Json.null, (c :: rest).drop 4)
          else parseNumber (c :: rest)

/-- Parse the fields of a JSON object after `\x7b`; `first` marks whether
no field has been consumed yet. -/
def parseObjFields : ℕ → List Char → Bool → Option (Json × List Char)
  | 0, _, _ => none
  | fuel + 1, cs, first =>
      match skipWs cs with
      | [] => none
      | c :: rest =>
          if c = rbraceChar then some (Json.obj [], rest)
          else
            let body := if first then c :: rest
              else if c = ',' then rest else []
            if body.isEmpty then none
            else match skipWs body with
              | c' :: rest' =>
                  if c' = dquoteChar then
                    match parseStringBody rest' with
                    | some (key, afterKey) =>
                        match skipWs afterKey with
                        | ':' :: afterColon =>
                            match parseValue fuel afterColon with
                            | some (v, afterVal) =>
                                match parseObjFields fuel afterVal false with
                                | some (Json.obj fields, rem) =>
                                    some (Json.obj ((key, v) :: fields), rem)
                                | _ => none
                            | none => none
                        | _ => none
                    | none => none
                  else none
              | [] => none

/-- Parse the items of a JSON array after `[`; `first` marks whether no
item has been consumed yet. -/
def parseArrItems : ℕ → List Char → Bool → Option (Json × List Char)
  | 0, _, _ => none
  | fuel + 1, cs, first =>
      match skipWs cs with
      | [] => none
      | c :: rest =>
          if c = ']' then some (Json.arr [], rest)
          else
            let body := if first then c :: rest
              else if c = ',' then rest else []
            if body.isEmpty then none
            else match parseValue fuel body with
              | some (v, afterVal) =>
                  match parseArrItems fuel afterVal false with
                  | some (Json.arr items, rem) => some (Json.arr (v :: items), rem)
                  | _ => none
              | none => none

end

/-- Modelled `JSON.parse`: parse one value and require only whitespace to
remain, otherwise fail (throw). -/
def jsonParse (s : String) : Option Json :=
  match parseValue (s.length + 2) s.toList with
  | some (j, rest) => if (skipWs rest).isEmpty then some j else none
  | none => none

/-- JavaScript string conversion of a scalar JSON value, as used when a
parsed JSON field map is handed to the normalizer. Falsy JSON values
(`null`, `false`, `0`, `""`) are mapped to the falsy string `""` so that
alias resolution sees the same truthiness as the source. -/
def jsonScalarToString : Json → String
  | .null => ""
  | .bool b => if b then "true" else ""
  | .num q => if q = 0 then "" else toString q
  | .str s => s
  | .arr _ => "[object]"
  | .obj _ => "[object]"

/-- Field map extracted from one parsed JSON item (non-objects have no
own enumerable string-keyed fields relevant to alias resolution). -/
def jsonToInput : Json → InputData
  | .obj fields => fields.map (fun kv => (kv.1, jsonScalarToString kv.2))
  | _ => []

/-- `Array.isArray(parsed) ? parsed : [parsed]`. -/
def jsonItems : Json → List Json
  | .arr items => items
  | j => [j]

/-- `^\d+$` test of the free-text fallback. -/
def isAllDigits (p : String) : Bool :=
  p != "" && p.toList.all (fun c => c.isDigit)

/-- Word characters for the `\b` boundary of the IPv4 regex. -/
def isWordChar (c : Char) : Bool :=
  c.isAlphanum || c = '_'

/-- Match 1–3 digits greedily with backtracking, then continue with `k`. -/
def matchDigits13 (cs : List Char) (k : List Char → Bool) : Bool :=
  match cs with
  | c₁ :: c₂ :: c₃ :: rest =>
      (c₁.isDigit && c₂.isDigit && c₃.isDigit && k rest) ||
      (c₁.isDigit && c₂.isDigit && k (c₃ :: rest)) ||
      (c₁.isDigit && k (c₂ :: c₃ :: rest))
  | c₁ :: c₂ :: rest =>
      (c₁.isDigit && c₂.isDigit && k rest) || (c₁.isDigit && k (c₂ :: rest))
  | c₁ :: rest => c₁.isDigit && k rest
  | [] => false

/-- Try the dotted-quad pattern `\d{1,3}\.\d{1,3}\.\d{1,3}\.\d{1,3}\b`
at the head of `cs`. -/
def matchIpAt (cs : List Char) : Bool :=
  matchDigits13 cs fun r₁ =>
    match r₁ with
    | '.' :: r₂ => matchDigits13 r₂ fun r₃ =>
        match r₃ with
        | '.' :: r₄ => matchDigits13 r₄ fun r₅ =>
            match r₅ with
            | '.' :: r₆ => matchDigits13 r₆ fun r₇ =>
                match r₇ with
                | [] => true
                | c :: _ => !isWordChar c
            | _ => false
        | _ => false
    | _ => false

/-- Scan for the IPv4 pattern at any position whose left context is a
`\b` boundary. The flag records being inside a word (no boundary); the
fuel (structural) bounds the number of scan steps. -/
def ipSearchAux : ℕ → Bool → List Char → Bool
  | 0, _, _ => false
  | _ + 1, _, [] => false
  | fuel + 1, false, c :: rest =>
      matchIpAt (c :: rest) ||
      (if isWordChar c then ipSearchAux fuel true rest else ipSearchAux fuel false rest)
  | fuel + 1, true, c :: rest =>
      if isWordChar c then ipSearchAux fuel true rest
      else ipSearchAux fuel false (c :: rest)

/-- Scan a whole string for the IPv4 pattern (start is a boundary). -/
def ipSearch (cs : List Char) : Bool :=
  ipSearchAux (2 * cs.length + 2) false cs

/-- `p.match(/\b\d{1,3}\.\d{1,3}\.\d{1,3}\.\d{1,3}\b/)` as a Boolean. -/
def looksLikeIp (p : String) : Bool :=
  ipSearch p.toList

/-- Record-type mnemonics recognized by the free-text fallback. -/
def typeMnemonics : List String :=
  ["A", "AAAA", "TXT", "CNAME", "MX", "NS"]

/-- Strip one leading and one trailing quote character
(`replace(/^["']|["']$/g, '')`). -/
def stripQuotes (s : String) : String :=
  let l := s.toList
  let l₁ := match l with
    | c :: rest => if c = dquoteChar ∨ c = squoteChar then rest else l
    | [] => []
  let l₂ := match l₁.reverse with
    | c :: rest => if c = dquoteChar ∨ c = squoteChar then rest.reverse else l₁
    | [] => []
  ⟨l₂⟩

/-- Does a trimmed line start with `#` (comment filter)? -/
def startsWithHash (l : String) : Bool :=
  startsWithL l.toList ['#']

/-- Truthiness of a field lookup (`obj.k` used as a condition). -/
def jsGetTruthy (data : InputData) (k : String) : Bool :=
  ((getField data k).getD "") != ""

/-- The CSV strategy of `parseLogContent` (header detection, zipping data
lines against the header list, acceptance test). -/
noncomputable def parseCSV (env : NormEnv) (lines : List String) (firstLine : String) :
    List DNSQuery :=
  let headers := (strSplitChar firstLine ',').map (fun h => stripQuotes (strTrim h))
  let likelyHeaders := ["query", "domain", "qname", "ip", "src", "timestamp", "time"]
  let hasHeaders := headers.any (fun h => likelyHeaders.any (fun lh => strContains (strToLower h) lh))
  let dataLines := if hasHeaders then lines.tail else lines
  let currentHeaders := if hasHeaders then headers
    else ["timestamp", "sourceIp", "query", "type", "responseCode"]
  dataLines.filterMap (fun line =>
    let parts := (strSplitChar line ',').map (fun p => stripQuotes (strTrim p))
    let obj := currentHeaders.zip parts
    if jsGetTruthy obj "query" || jsGetTruthy obj "domain" || decide (3 ≤ parts.length)
    then some (normalizeDNSQuery env obj) else none)

/-- The space/tab-separated free-text fallback for one line. -/
noncomputable def parseTextLine (env : NormEnv) (line : String) : Option DNSQuery :=
  let parts := (strSplitPred line (fun c => c.isWhitespace)).filter (· != "")
  let queryStr := parts.find? (fun p => strContainsChar p '.' && !(isAllDigits p))
  let ipStr := parts.find? looksLikeIp
  let type := (parts.find? (fun p => typeMnemonics.contains p.toUpper)).getD "A"
  match queryStr with
  | some q =>
      let ts : Option String :=
        match parts.head? with
        | some p₀ => if 10 < p₀.length then some p₀ else none
        | none => none
      some (normalizeDNSQuery env
        ([("query", q)] ++
         (match ipStr with | some ip => [("sourceIp", ip)] | none => []) ++
         [("type", type)] ++
         (match ts with | some t => [("timestamp", t)] | none => [])))
  | none => none

/-- One line of the line-by-line stage: standalone JSON first, then the
free-text fallback. -/
noncomputable def parseLooseLine (env : NormEnv) (line : String) : Option DNSQuery :=
  match jsonParse line with
  | some j => some (normalizeDNSQuery env (jsonToInput j))
  | none => parseTextLine env line

/-- `parseLogContent` of the source. `none` models the uncaught
`TypeError` thrown when the content is non-empty but every line is
filtered out (then `lines[0]` is `undefined`). -/
noncomputable def parseLogContent (env : NormEnv) (content : String) :
    Option (List DNSQuery) :=
  let trimmed := strTrim content
  if trimmed = "" then some []
  else
    match jsonParse trimmed with
    | some j => some ((jsonItems j).map (fun item => normalizeDNSQuery env (jsonToInput item)))
    | none =>
        let lines := ((strSplitChar trimmed '\n').map strTrim).filter
          (fun l => l != "" && !(startsWithHash l))
        match lines with
        | [] => none
        | firstLine :: _ =>
            let isCSV := strContainsChar firstLine ',' && !(strContainsChar firstLine '\t')
            let csvResult := if isCSV then parseCSV env lines firstLine else []
            if csvResult.length > 0 then some csvResult
            else some (lines.filterMap (parseLooseLine env))

/-! ## Claim-side definitions

Definitions below named `...Spec...` or `reduced...` transcribe the exact
wording of a spec claim, for comparison against the source translation
above. -/

/-- The geolocation factor exactly as claim C1 words it: `+15` if the
location string contains a high-risk name, `+5` if the location is
*absent* or equals `'Resolving...'`, else `0` (no clause for a present
empty string). -/
def geoFactorSpecC1 (q : DNSQuery) : ℚ :=
  match q.location with
  | some loc =>
      if highRiskLocations.any (fun l => strContains loc l) then 15
      else if loc = "Resolving..." then 5
      else 0
  | none => 5

/-- The threat score exactly as claim C1 words it (all other factors as
in the source, the geolocation factor per `geoFactorSpecC1`). -/
def specThreatScoreC1 (q : DNSQuery) : ℚ :=
  min 100 ((round (entropyFactor q + lengthFactor q + responseCodeFactor q +
    queryTypeFactor q + geoFactorSpecC1 q + reputationFactor q) : ℤ) : ℚ)

/-- The reduced classification rule of claim C3: label is `Tunneling`
iff `entropy > 4.2` or `length > 55`, over the resolved query text. -/
noncomputable def reducedLabelC3 (q : String) : Label :=
  if calculateEntropy q > 4.2 ∨ (q.length : ℚ) > 55 then .Tunneling else .Normal

/-- Every alias candidate of a core field per claim C5's wording
(including the capitalized variants and `id`). -/
def aliasKeysC5 : List String :=
  ["query", "domain", "qname", "Question",
   "sourceIp", "src_ip", "client_ip", "SourceIP",
   "timestamp", "time", "Timestamp",
   "type", "qtype", "QueryType",
   "responseCode", "rcode", "ResponseCode", "id"]

/-- The metadata exactly as claim C5 words it: the input entries whose
key is not an alias candidate of a core field. -/
def specMetadataC5 (data : InputData) : InputData :=
  data.filter (fun kv => !(aliasKeysC5.contains kv.1))

/-- The NXDOMAIN ratio as claim C9 words it: the number of records whose
`responseCode` is `"NXDOMAIN"` divided by the total number of records. -/
def nxDomainRatioSpec (logs : List DNSQuery) : ℚ :=
  ((logs.filter (fun l => l.responseCode = "NXDOMAIN")).length : ℚ) /
    (logs.length : ℚ)

/-- A fixed environment for concrete evaluations. -/
def env0 : NormEnv := { genId := "id0", now := "t0", rand := 0 }

/-- Concrete record for claim C1's counterexample: every factor input
neutral except a present-but-empty `location` string. -/
def rEmptyLoc : DNSQuery :=
  { id := "i", timestamp := "t", sourceIp := "8.8.8.8", query := "", type := "A"
    responseCode := "NOERROR", length := 0, entropy := 0, location := some ""
    label := .Normal, confidence := 0, threatScore := 0, reputation := .UNKNOWN
    metadata := [] }

/-- Concrete record for claim C9: a single record whose response code is
`NOERROR`, so the true NXDOMAIN proportion is `0`. -/
def rNoError : DNSQuery :=
  { id := "i", timestamp := "t", sourceIp := "8.8.8.8", query := "a.example.com", type := "A"
    responseCode := "NOERROR", length := 13, entropy := 0, location := none
    label := .Normal, confidence := 0, threatScore := 0, reputation := .UNKNOWN
    metadata := [] }

/-! ## Helper lemmas -/

/-- `String.length` is the length of the character list. -/
theorem string_length_eq (s : String) : s.length = s.toList.length := rfl

/-- Rounding is monotone on the rationals. -/
theorem roundQ_mono {x y : ℚ} (h : x ≤ y) : round x ≤ round y := by
  rw [round_eq, round_eq]
  exact Int.floor_le_floor (by linarith)

theorem entropyFactor_nonneg (q : DNSQuery) : 0 ≤ entropyFactor q := by
  unfold entropyFactor
  split_ifs with h
  · exact le_min (by norm_num) (by nlinarith)
  · exact le_refl 0

theorem lengthFactor_nonneg (q : DNSQuery) : 0 ≤ lengthFactor q := by
  unfold lengthFactor
  split_ifs with h
  · exact le_min (by norm_num) (by nlinarith)
  · exact le_refl 0

theorem responseCodeFactor_nonneg (q : DNSQuery) : 0 ≤ responseCodeFactor q := by
  unfold responseCodeFactor
  split_ifs <;> norm_num

theorem queryTypeFactor_nonneg (q : DNSQuery) : 0 ≤ queryTypeFactor q := by
  unfold queryTypeFactor
  split_ifs <;> norm_num

theorem geoFactor_nonneg (q : DNSQuery) : 0 ≤ geoFactor q := by
  unfold geoFactor
  cases q.location
  · norm_num
  · dsimp only
    split_ifs <;> norm_num

theorem reputationFactor_nonneg (q : DNSQuery) : 0 ≤ reputationFactor q := by
  unfold reputationFactor
  split_ifs <;> norm_num

/-- The six-factor sum is non-negative. -/
theorem threatSum_nonneg (q : DNSQuery) :
    0 ≤ entropyFactor q + lengthFactor q + responseCodeFactor q +
      queryTypeFactor q + geoFactor q + reputationFactor q := by
  have h1 := entropyFactor_nonneg q
  have h2 := lengthFactor_nonneg q
  have h3 := responseCodeFactor_nonneg q
  have h4 := queryTypeFactor_nonneg q
  have h5 := geoFactor_nonneg q
  have h6 := reputationFactor_nonneg q
  linarith

/-- A record with no location at all gets at least the `+5` geolocation
contribution, and hence a threat score of at least 5. -/
theorem calculateThreatScore_ge_five (q : DNSQuery) (h : q.location = none) :
    5 ≤ calculateThreatScore q := by
  have hgeo : geoFactor q = 5 := by unfold geoFactor; rw [h]
  have hsum : 5 ≤ entropyFactor q + lengthFactor q + responseCodeFactor q +
      queryTypeFactor q + geoFactor q + reputationFactor q := by
    have h1 := entropyFactor_nonneg q
    have h2 := lengthFactor_nonneg q
    have h3 := responseCodeFactor_nonneg q
    have h4 := queryTypeFactor_nonneg q
    have h6 := reputationFactor_nonneg q
    linarith
  have hround : (5 : ℤ) ≤ round (entropyFactor q + lengthFactor q +
      responseCodeFactor q + queryTypeFactor q + geoFactor q + reputationFactor q) := by
    have := roundQ_mono hsum
    rwa [show round (5 : ℚ) = 5 by norm_num [round_eq]] at this
  unfold calculateThreatScore
  exact le_min (by norm_num) (by exact_mod_cast hround)

/-! ## Claims -/

/-- C1 (counterexample): the claim's geolocation clause ("+5 if location
is absent or equals 'Resolving...', else 0") disagrees with the source on
a record whose `location` is a present empty string: the source's
truthiness test routes `""` into the `+5` branch, the claim's formula
gives it `0`.  -/
theorem claim_C1_counterexample :
    calculateThreatScore rEmptyLoc = 5 ∧ specThreatScoreC1 rEmptyLoc = 0 ∧
      calculateThreatScore rEmptyLoc ≠ specThreatScoreC1 rEmptyLoc := by
  have h1 : calculateThreatScore rEmptyLoc = 5 := by
    simp [calculateThreatScore, entropyFactor, lengthFactor, responseCodeFactor,
      queryTypeFactor, geoFactor, reputationFactor, rEmptyLoc]
    norm_num [min_def, round_eq]
  have h2 : specThreatScoreC1 rEmptyLoc = 0 := by
    simp [specThreatScoreC1, entropyFactor, lengthFactor, responseCodeFactor,
      queryTypeFactor, geoFactorSpecC1, reputationFactor, rEmptyLoc, strContains,
      highRiskLocations, occursIn, startsWithL]
    norm_num [min_def, round_eq]
  refine ⟨h1, h2, ?_⟩
  rw [h1, h2]
  norm_num

/-- C1 (amended): for every record, `calculateThreatScore` is the rounded
and 100-clamped sum of the six factors — with the geolocation factor
giving `+5` also to a present-but-empty location string — and the result
is an integer in `[0, 100]`. -/
theorem claim_C1_amended (q : DNSQuery) :
    calculateThreatScore q =
      min 100 ((round (entropyFactor q + lengthFactor q + responseCodeFactor q +
        queryTypeFactor q + geoFactor q + reputationFactor q) : ℤ) : ℚ) ∧
    (0 ≤ calculateThreatScore q ∧ calculateThreatScore q ≤ 100) ∧
    (∃ n : ℤ, calculateThreatScore q = (n : ℚ)) := by
  refine ⟨rfl, ⟨?_, ?_⟩, ?_⟩
  · have hround : (0 : ℤ) ≤ round (entropyFactor q + lengthFactor q +
        responseCodeFactor q + queryTypeFactor q + geoFactor q + reputationFactor q) := by
      have := roundQ_mono (threatSum_nonneg q)
      rwa [round_zero] at this
    exact le_min (by norm_num) (by exact_mod_cast hround)
  · exact min_le_left _ _
  · exact ⟨min 100 (round (entropyFactor q + lengthFactor q + responseCodeFactor q +
      queryTypeFactor q + geoFactor q + reputationFactor q)), by
        unfold calculateThreatScore
        push_cast
        rfl⟩

/-- C10: every record produced by the normalizer has threat score at
least 5 (and hence never 0): the normalizer never populates `location`,
so the geolocation factor always contributes its `+5` absent-location
branch, and every other factor is non-negative. -/
theorem claim_C10 (env : NormEnv) (data : InputData) :
    5 ≤ (normalizeDNSQuery env data).threatScore ∧
      (normalizeDNSQuery env data).threatScore ≠ 0 := by
  have h5 : 5 ≤ (normalizeDNSQuery env data).threatScore :=
    calculateThreatScore_ge_five (normalizePre env data) rfl
  exact ⟨h5, by intro h0; rw [h0] at h5; norm_num at h5⟩

/-- C2: the classifier labels `Tunneling` exactly when the resolved
entropy exceeds 4.2, or the resolved length exceeds 55, or the supplied
threat score (defaulting to 0 when absent) exceeds 60; otherwise it
labels `Normal`. -/
theorem claim_C2 (q : ClassifyInput) (rand : ℚ) :
    ((classifyQuery q rand).label = .Tunneling ↔
      (resolvedEntropy q > 4.2 ∨ resolvedLength q > 55 ∨ resolvedScore q > 60)) ∧
    ((classifyQuery q rand).label = .Normal ↔
      ¬(resolvedEntropy q > 4.2 ∨ resolvedLength q > 55 ∨ resolvedScore q > 60)) := by
  unfold classifyQuery
  by_cases h : (resolvedEntropy q > 4.2 ∨ resolvedLength q > 55) ∨ resolvedScore q > 60
  · simp only [if_pos h]
    rw [or_assoc] at h
    simp [h]
  · simp only [if_neg h]
    rw [or_assoc] at h
    simp [h]

/-- The classifier invoked with no threat score: only the entropy/length
thresholds decide the label. -/
theorem classify_label_no_score (q : String) (len ent rand : ℚ) :
    (classifyQuery (ClassifyInput.mk (some q) (some len) (some ent) none) rand).label =
      if ent > 4.2 ∨ len > 55 then Label.Tunneling else Label.Normal := by
  unfold classifyQuery
  simp [resolvedEntropy, resolvedLength, resolvedScore]
  norm_num

/-- C3: in the normalization pipeline the classifier runs before the
threat score exists, so the produced label is exactly the reduced rule
"Tunneling iff entropy > 4.2 or length > 55" over the resolved query
text, and the confidence is the one computed by that zero-score
classifier call — the final threat score never feeds back into either. -/
theorem claim_C3 (env : NormEnv) (data : InputData) :
    (normalizeDNSQuery env data).label = reducedLabelC3 (resolveQuery data) ∧
    (normalizeDNSQuery env data).confidence =
      (classifyQuery (ClassifyInput.mk (some (resolveQuery data))
        (some ((resolveQuery data).length : ℚ))
        (some (calculateEntropy (resolveQuery data))) none) env.rand).confidence := by
  constructor
  · show (classifyQuery (ClassifyInput.mk (some (resolveQuery data))
      (some ((resolveQuery data).length : ℚ))
      (some (calculateEntropy (resolveQuery data))) none) env.rand).label =
        reducedLabelC3 (resolveQuery data)
    rw [classify_label_no_score]
    rfl
  · rfl

/-- C5 (counterexample): the key `Question` is consumed as a query alias
by the normalizer, yet it is not in the source's `coreFields` list, so it
is still copied into `metadata` — contradicting the claim that no
alias-consumed key appears there. -/
theorem claim_C5_counterexample :
    (normalizeDNSQuery env0 [("Question", "x.com")]).metadata = [("Question", "x.com")] ∧
    specMetadataC5 [("Question", "x.com")] = [] ∧
    (normalizeDNSQuery env0 [("Question", "x.com")]).metadata ≠
      specMetadataC5 [("Question", "x.com")] := by
  refine ⟨rfl, rfl, ?_⟩
  intro h
  exact absurd h (by decide)

/-- C5 (amended): the metadata of a normalized record contains exactly
the input entries whose key is not in the source's `coreFields` list
(which omits the capitalized alias candidates `Question`, `SourceIP`,
`Timestamp`, `QueryType`, `ResponseCode`), each copied verbatim. -/
theorem claim_C5_amended (env : NormEnv) (data : InputData) (k v : String) :
    (k, v) ∈ (normalizeDNSQuery env data).metadata ↔
      ((k, v) ∈ data ∧ k ∉ coreFields) := by
  show (k, v) ∈ data.filter (fun kv => !(coreFields.contains kv.1)) ↔ _
  rw [List.mem_filter]
  simp

/-- A string containing a character is non-empty. -/
theorem ne_empty_of_containsChar (s : String) (c : Char)
    (h : strContainsChar s c = true) : s ≠ "" := by
  intro he
  subst he
  simp [strContainsChar] at h

/-- Resolving the query of a field map whose first entry is a truthy
`query` yields that value. -/
theorem resolveQuery_query_cons (q : String) (rest : InputData) (hq : q ≠ "") :
    resolveQuery (("query", q) :: rest) = q := by
  simp [resolveQuery, firstTruthy, getField, List.find?, hq]

/-- C4 (counterexample): the whole-document JSON path of
`parseLogContent` has no query guard: the input `\x7b\x7d` (an empty
JSON object) produces exactly one record, and its query is the empty
string. -/
theorem claim_C4_counterexample :
    parseLogContent env0 "\x7b\x7d" = some [normalizeDNSQuery env0 []] ∧
    (normalizeDNSQuery env0 []).query = "" := ⟨rfl, rfl⟩

/-- C4 (amended): every record produced by the free-text fallback line
parser has a non-empty query string (the accepted token contains a dot);
the whole-document JSON, CSV and line-delimited JSON paths carry no such
guarantee. -/
theorem claim_C4_amended (env : NormEnv) (line : String) (r : DNSQuery)
    (h : parseTextLine env line = some r) : r.query ≠ "" := by
  unfold parseTextLine at h
  rcases hfind : ((strSplitPred line (fun c => c.isWhitespace)).filter (· != "")).find?
      (fun p => strContainsChar p '.' && !(isAllDigits p)) with _ | q
  · simp only [hfind] at h
    exact Option.noConfusion h
  · simp only [hfind, Option.some.injEq] at h
    have hpred := List.find?_some hfind
    have hdot : strContainsChar q '.' = true := by
      simp only [Bool.and_eq_true] at hpred
      exact hpred.1
    have hq : q ≠ "" := ne_empty_of_containsChar q '.' hdot
    subst h
    have hquery : (normalizeDNSQuery env ([("query", q)] ++
        (match ((strSplitPred line (fun c => c.isWhitespace)).filter (· != "")).find? looksLikeIp with
          | some ip => [("sourceIp", ip)] | none => []) ++
        [("type", (((strSplitPred line (fun c => c.isWhitespace)).filter (· != "")).find?
            (fun p => typeMnemonics.contains p.toUpper)).getD "A")] ++
        (match (match ((strSplitPred line (fun c => c.isWhitespace)).filter (· != "")).head? with
            | some p₀ => if 10 < p₀.length then some p₀ else none
            | none => none) with
          | some t => [("timestamp", t)] | none => []))).query = q := by
      show resolveQuery _ = q
      rw [List.singleton_append]
      exact resolveQuery_query_cons q _ hq
    rw [hquery]
    exact hq

/-- C4 (witness): a concrete free-text line yields a record, and the
amended theorem applies to it. -/
theorem claim_C4_witness :
    ∃ r, parseTextLine env0 "evil.tunnel.net 1.2.3.4 A" = some r ∧ r.query ≠ "" := by
  refine ⟨_, rfl, ?_⟩
  exact claim_C4_amended env0 "evil.tunnel.net 1.2.3.4 A" _ rfl

/-- C7: `checkIpReputation` applies the fixed lookup order — malicious
list, suspicious list, `192.168.` private network, unknown — and in
particular the listed address `192.168.1.105` is MALICIOUS (list beats
private network), `192.168.50.1` is CLEAN and `8.8.8.8` is UNKNOWN. -/
theorem claim_C7 :
    (∀ ip : String,
      (ip ∈ maliciousIps → checkIpReputation ip = .MALICIOUS) ∧
      (ip ∉ maliciousIps → ip ∈ suspiciousIps → checkIpReputation ip = .SUSPICIOUS) ∧
      (ip ∉ maliciousIps → ip ∉ suspiciousIps →
        startsWithL ip.toList ("192.168.".toList) = true → checkIpReputation ip = .CLEAN) ∧
      (ip ∉ maliciousIps → ip ∉ suspiciousIps →
        startsWithL ip.toList ("192.168.".toList) = false →
        checkIpReputation ip = .UNKNOWN)) ∧
    checkIpReputation "192.168.1.105" = .MALICIOUS ∧
    checkIpReputation "192.168.50.1" = .CLEAN ∧
    checkIpReputation "8.8.8.8" = .UNKNOWN := by
  refine ⟨fun ip => ⟨?_, ?_, ?_, ?_⟩, by decide, by decide, by decide⟩
  · intro h1
    unfold checkIpReputation
    rw [if_pos h1]
  · intro h1 h2
    unfold checkIpReputation
    rw [if_neg h1, if_pos h2]
  · intro h1 h2 h3
    unfold checkIpReputation
    rw [if_neg h1, if_neg h2, if_pos h3]
  · intro h1 h2 h3
    unfold checkIpReputation
    rw [if_neg h1, if_neg h2, if_neg (fun hc => Bool.false_ne_true (h3.symm.trans hc))]

/-- C7 (witness): the lookup-order statement applied at a concrete
malicious-list address. -/
theorem claim_C7_witness : checkIpReputation "45.33.22.11" = .MALICIOUS :=
  (claim_C7.1 "45.33.22.11").1 (by decide)

/-- C8: for a threat score in `[0, 100]` and a random draw in `[0, 1)`
(hence jitter in `[0, 0.1)` for Tunneling and `[0, 0.15)` for Normal),
the confidence lies in `(0, 0.99]` and equals the claimed min-formula of
the branch taken. -/
theorem claim_C8 (q : ClassifyInput) (rand : ℚ) (hr0 : 0 ≤ rand) (hr1 : rand < 1)
    (hs0 : 0 ≤ resolvedScore q) (hs100 : resolvedScore q ≤ 100) :
    (0 < (classifyQuery q rand).confidence ∧ (classifyQuery q rand).confidence ≤ 0.99) ∧
    ((classifyQuery q rand).label = .Tunneling →
      (classifyQuery q rand).confidence = min 0.99 (0.7 + resolvedScore q / 200 + rand * 0.1)) ∧
    ((classifyQuery q rand).label = .Normal →
      (classifyQuery q rand).confidence = min 0.99 (0.8 + rand * 0.15)) := by
  have hdiv : 0 ≤ resolvedScore q / 200 := by positivity
  unfold classifyQuery
  by_cases h : (resolvedEntropy q > 4.2 ∨ resolvedLength q > 55) ∨ resolvedScore q > 60
  · simp only [if_pos h]
    refine ⟨⟨?_, ?_⟩, ?_, ?_⟩
    · exact lt_min (by norm_num) (by nlinarith)
    · exact min_le_left _ _
    · intro _; rfl
    · intro hlab; exact absurd hlab (by simp)
  · simp only [if_neg h]
    refine ⟨⟨?_, ?_⟩, ?_, ?_⟩
    · exact lt_min (by norm_num) (by nlinarith)
    · exact min_le_left _ _
    · intro hlab; exact absurd hlab (by simp)
    · intro _; rfl

/-- C8 (witness): the confidence bounds at a concrete input (score 50,
random draw 1/2). -/
theorem claim_C8_witness :
    0 < (classifyQuery (ClassifyInput.mk none none (some 5) (some 50)) (1/2)).confidence ∧
    (classifyQuery (ClassifyInput.mk none none (some 5) (some 50)) (1/2)).confidence ≤ 0.99 :=
  (claim_C8 (ClassifyInput.mk none none (some 5) (some 50)) (1/2)
    (by norm_num) (by norm_num)
    (by norm_num [resolvedScore]) (by norm_num [resolvedScore])).1

/-- C9: the claim says the NXDOMAIN ratio is the proportion of records
whose response code is NXDOMAIN, but `getStats` returns the fixed
placeholder `0.12` regardless: on a single NOERROR record the true
proportion is `0` while the code reports `0.12`. -/
theorem claim_C9_stub :
    (getStats [rNoError]).nxDomainRatio = 0.12 ∧
    nxDomainRatioSpec [rNoError] = 0 ∧
    (getStats [rNoError]).nxDomainRatio ≠ nxDomainRatioSpec [rNoError] := by
  have h1 : (getStats [rNoError]).nxDomainRatio = 0.12 := by simp [getStats]
  have h2 : nxDomainRatioSpec [rNoError] = 0 := by
    simp [nxDomainRatioSpec, rNoError]
  refine ⟨h1, h2, ?_⟩
  rw [h1, h2]
  norm_num

/-! ## Entropy lemmas for C6 -/

/-- The distinct-character counts of a list sum to its length. -/
theorem sum_count_toFinset (l : List Char) :
    ∑ c in l.toFinset, l.count c = l.length := by
  simpa using Multiset.toFinset_sum_count_eq (l : Multiset Char)

/-- On a list whose every distinct character occurs exactly `k > 0`
times, the raw entropy is `log2` of the number of distinct characters. -/
theorem entropyRaw_uniform (l : List Char) (k : ℕ) (hk : 0 < k) (hl : l ≠ [])
    (hcount : ∀ c ∈ l.toFinset, l.count c = k) :
    entropyRaw l = Real.logb 2 (l.toFinset.card : ℝ) := by
  have hmem : ∃ a, a ∈ l := List.exists_mem_of_ne_nil l hl
  have hne : l.toFinset.Nonempty := by
    obtain ⟨a, ha⟩ := hmem
    exact ⟨a, List.mem_toFinset.mpr ha⟩
  set n := l.toFinset.card with hn
  have hnpos : 0 < n := Finset.card_pos.mpr hne
  have hlen : l.length = n * k := by
    rw [← sum_count_toFinset l, Finset.sum_congr rfl hcount]
    simp [mul_comm]
  have hnR : ((n : ℝ)) ≠ 0 := Nat.cast_ne_zero.mpr hnpos.ne'
  have hkR : ((k : ℝ)) ≠ 0 := Nat.cast_ne_zero.mpr hk.ne'
  have hterm : ∀ c ∈ l.toFinset,
      -(((l.count c : ℝ) / (l.length : ℝ)) *
        Real.logb 2 ((l.count c : ℝ) / (l.length : ℝ)))
      = (1 / (n : ℝ)) * Real.logb 2 (n : ℝ) := by
    intro c hc
    have hp : ((l.count c : ℝ) / (l.length : ℝ)) = 1 / (n : ℝ) := by
      rw [hcount c hc, hlen]
      push_cast
      field_simp
      ring
    rw [hp, one_div, Real.logb_inv]
    ring
  rw [entropyRaw, Finset.sum_congr rfl hterm, Finset.sum_const, ← hn, nsmul_eq_mul]
  field_simp

/-- C6: the entropy calculator returns 0 on the empty string and on any
constant string; it is invariant under permutation of the characters; on
a string whose `n` distinct characters occur equally often it returns
`log2 n` rounded to 3 decimals; and every result is a multiple of
`1/1000` (3-decimal rounding). It is a total function by construction. -/
theorem claim_C6 :
    calculateEntropy "" = 0 ∧
    (∀ (s : String) (c : Char), (∀ x ∈ s.toList, x = c) → calculateEntropy s = 0) ∧
    (∀ s t : String, s.toList.Perm t.toList → calculateEntropy s = calculateEntropy t) ∧
    (∀ (s : String) (k : ℕ), 0 < k → (∀ c ∈ s.toList, s.toList.count c = k) →
      calculateEntropy s = roundTo3 (Real.logb 2 (s.toList.toFinset.card : ℝ))) ∧
    (∀ s : String, ∃ z : ℤ, calculateEntropy s = (z : ℚ) / 1000) := by
  have huniform : ∀ (s : String) (k : ℕ), 0 < k →
      (∀ c ∈ s.toList, s.toList.count c = k) →
      calculateEntropy s = roundTo3 (Real.logb 2 (s.toList.toFinset.card : ℝ)) := by
    intro s k hk hcount
    by_cases hnil : s.toList = []
    · have hlen : s.length = 0 := by rw [string_length_eq, hnil]; rfl
      rw [calculateEntropy, if_pos hlen, hnil]
      simp [roundTo3, Real.logb]
    · have hlen : s.length ≠ 0 := by
        rw [string_length_eq]
        exact fun h => hnil (List.length_eq_zero.mp h)
      rw [calculateEntropy, if_neg hlen,
        entropyRaw_uniform s.toList k hk hnil
          (fun c hc => hcount c (List.mem_toFinset.mp hc))]
  refine ⟨rfl, ?_, ?_, huniform, ?_⟩
  · intro s c hall
    by_cases hnil : s.toList = []
    · have hlen : s.length = 0 := by rw [string_length_eq, hnil]; rfl
      rw [calculateEntropy, if_pos hlen]
    · have hcount : ∀ x ∈ s.toList, s.toList.count x = s.toList.length := by
        intro x hx
        rw [List.count_eq_length]
        intro b hb
        rw [hall b hb, hall x hx]
      have hk : 0 < s.toList.length := List.length_pos.mpr hnil
      have hcard : s.toList.toFinset.card = 1 := by
        obtain ⟨a, ha⟩ := List.exists_mem_of_ne_nil s.toList hnil
        rw [Finset.card_eq_one]
        refine ⟨c, ?_⟩
        ext x
        simp only [List.mem_toFinset, Finset.mem_singleton]
        exact ⟨fun hx => hall x hx, fun hx => hx ▸ (hall a ha ▸ ha)⟩
      rw [huniform s s.toList.length hk hcount, hcard]
      simp [roundTo3]
  · intro s t h
    have h1 : s.toList.length = t.toList.length := h.length_eq
    have h2 : s.toList.toFinset = t.toList.toFinset := List.toFinset_eq_of_perm _ _ h
    have h3 : ∀ c, s.toList.count c = t.toList.count c := fun c => h.count_eq c
    rw [calculateEntropy, calculateEntropy, string_length_eq, string_length_eq, h1]
    rcases eq_or_ne t.toList.length 0 with hz | hz
    · rw [if_pos hz, if_pos hz]
    · rw [if_neg hz, if_neg hz]
      congr 1
      rw [entropyRaw, entropyRaw, h2]
      exact Finset.sum_congr rfl fun c _ => by rw [h3 c, h1]
  · intro s
    by_cases hlen : s.length = 0
    · exact ⟨0, by rw [calculateEntropy, if_pos hlen]; norm_num⟩
    · exact ⟨round (entropyRaw s.toList * 1000), by
        rw [calculateEntropy, if_neg hlen, roundTo3]⟩

/-- C6 (witness): the constant-string, permutation and uniform cases of
`claim_C6` applied at concrete strings. -/
theorem claim_C6_witness :
    calculateEntropy "aaaa" = 0 ∧
    calculateEntropy "ab" = calculateEntropy "ba" ∧
    calculateEntropy "ab" = roundTo3 (Real.logb 2 2) := by
  refine ⟨claim_C6.2.1 "aaaa" 'a' (by decide),
    claim_C6.2.2.1 "ab" "ba" (by decide), ?_⟩
  have hd := claim_C6.2.2.2.1 "ab" 1 (by norm_num) (by decide)
  have hcard : ("ab".toList.toFinset.card) = 2 := by decide
  rw [hcard] at hd
  simpa using hd

end AegisDNS
